import Mathlib

/-!
Shallow embedding of the ByteRyte backend's vault access-control subsystem.

The definitions below are translated from the TypeScript route handlers and
services of the repository:
  * `src/routes/password.routes.ts` (password/item CRUD and the vault routes),
  * `src/routes/item.routes.ts` (item CRUD with soft delete),
  * `src/routes/auth.routes.ts` (change-password),
  * `src/services/audit.service.ts` (AuditService.log with its env gate and
    try/catch swallow).

Persistent state (`prisma` tables users/vaults/vaultMembers/items/auditLogs)
is modelled as lists inside a `DB` structure; each route handler becomes a
pure function `Config → DB → args → DB × Except ApiError α`, returning the
post-state together with either the handler's result or the thrown error.
Nondeterministic inputs of the real system (freshly generated record ids,
whether the audit insert or the rotation transaction throws, the
`ENABLE_AUDIT_LOGS` environment variable) are made explicit parameters.
-/

namespace ByteRyte

/-- Membership role, from the zod enum `['ADMIN', 'MEMBER', 'READ_ONLY']`
used by `addMemberSchema` and `updateMemberRoleSchema`. -/
inductive Role where
  | ADMIN
  | MEMBER
  | READ_ONLY
deriving DecidableEq, Repr

/-- Vault type, from the zod enum `['PERSONAL', 'GROUP', 'STEALTH']` of
`createVaultSchema`. -/
inductive VaultType where
  | PERSONAL
  | GROUP
  | STEALTH
deriving DecidableEq, Repr

/-- A row of the `user` table (the fields the handlers read). -/
structure User where
  id : String
  email : String
  passwordVerifier : String
deriving DecidableEq, Repr

/-- A row of the `vault` table. -/
structure Vault where
  id : String
  name : String
  vtype : VaultType
  ownerId : String
  encryptedVaultKey : String
deriving DecidableEq, Repr

/-- A row of the `vaultMember` table. -/
structure VaultMember where
  id : String
  vaultId : String
  userId : String
  role : Role
  encryptedVaultKey : String
deriving DecidableEq, Repr

/-- A row of the `item` table (the fields the handlers read and write).
`deletedAt` mirrors the timestamp set by the item route's soft delete. -/
structure Item where
  id : String
  vaultId : String
  encryptedBlob : String
  isDeleted : Bool
  deletedAt : Option String
deriving DecidableEq, Repr

/-- A row of the `auditLog` table (the fields `AuditService.log` writes that
the handlers determine: actor, action, target). -/
structure AuditEntry where
  userId : String
  actionType : String
  targetId : String
  targetType : String
deriving DecidableEq, Repr

/-- The persistent store: the prisma tables the handlers touch. -/
structure DB where
  users : List User
  vaults : List Vault
  members : List VaultMember
  items : List Item
  auditLog : List AuditEntry
deriving DecidableEq, Repr

/-- Environment and failure-injection switches, made explicit:
`enableAuditLogs` is `process.env.ENABLE_AUDIT_LOGS === 'true'`,
`auditCreateFails` is whether `prisma.auditLog.create` throws, and
`txFails` is whether the change-password `prisma.$transaction` throws. -/
structure Config where
  enableAuditLogs : Bool
  auditCreateFails : Bool
  txFails : Bool
deriving DecidableEq, Repr

/-- The error kinds a handler can throw: `NotFoundError(resource)`,
`ForbiddenError(message)`, `ValidationError`, the 409/401 replies, and
`database` for a prisma error surfaced by the global error handler. -/
inductive ApiError where
  | notFound (resource : String)
  | forbidden (msg : String)
  | validation
  | conflict (msg : String)
  | unauthorized (msg : String)
  | database
deriving DecidableEq, Repr

/-- `AuditService.log`: returns immediately unless
`process.env.ENABLE_AUDIT_LOGS === 'true'`; wraps `prisma.auditLog.create`
in try/catch, so a failing insert is logged to the console and swallowed. -/
def AuditService.log (cfg : Config) (db : DB)
    (userId actionType targetId targetType : String) : DB :=
  if !cfg.enableAuditLogs then db
  else if cfg.auditCreateFails then db
  else { db with auditLog := db.auditLog ++ [⟨userId, actionType, targetId, targetType⟩] }

/-- `prisma.vault.findUnique({ where: { id } })`. -/
def findVault (db : DB) (vaultId : String) : Option Vault :=
  db.vaults.find? (fun v => v.id == vaultId)

/-- The `members` relation loaded by `include: { members: true }` on a vault. -/
def vaultMembersOf (db : DB) (vaultId : String) : List VaultMember :=
  db.members.filter (fun m => m.vaultId == vaultId)

/-- `prisma.item.findUnique({ where: { id } })`. -/
def findItem (db : DB) (itemId : String) : Option Item :=
  db.items.find? (fun i => i.id == itemId)

/-- `prisma.user.findUnique({ where: { email } })`. -/
def findUserByEmail (db : DB) (email : String) : Option User :=
  db.users.find? (fun u => u.email == email)

/-- `prisma.user.findUnique({ where: { id } })`. -/
def findUserById (db : DB) (userId : String) : Option User :=
  db.users.find? (fun u => u.id == userId)

/-- `prisma.vaultMember.findUnique({ where: { id } })` — keyed by the
membership row's own id, with no vault scoping. -/
def findMemberById (db : DB) (memberId : String) : Option VaultMember :=
  db.members.find? (fun m => m.id == memberId)

/-- `vault.ownerId === userId || vault.members.some(m => m.userId === userId)`
— the access check shared by the create-item, get-item, get-vault and
list-items handlers. -/
def hasAccess (db : DB) (vault : Vault) (userId : String) : Bool :=
  vault.ownerId == userId ||
    (vaultMembersOf db vault.id).any (fun m => m.userId == userId)

/-- `vault.ownerId === userId ||
vault.members.some(m => m.userId === userId && m.role !== 'READ_ONLY')`
— the write-access check of the password update and delete handlers. -/
def hasWriteAccess (db : DB) (vault : Vault) (userId : String) : Bool :=
  vault.ownerId == userId ||
    (vaultMembersOf db vault.id).any
      (fun m => m.userId == userId && m.role != Role.READ_ONLY)

/-- `passwordRoutes` POST `/`: create a password item. Checks the vault
exists and that the caller is the owner **or any member** (no role check),
then inserts the item and logs `ITEM_CREATED`. -/
def createPassword (cfg : Config) (db : DB)
    (userId vaultId encryptedBlob newItemId : String) :
    DB × Except ApiError Item :=
  match findVault db vaultId with
  | none => (db, .error (.notFound "Vault"))
  | some vault =>
    if !hasAccess db vault userId then
      (db, .error (.forbidden "You do not have access to this vault"))
    else
      let item : Item := ⟨newItemId, vaultId, encryptedBlob, false, none⟩
      let db1 := { db with items := db.items ++ [item] }
      let db2 := AuditService.log cfg db1 userId "ITEM_CREATED" newItemId "item"
      (db2, .ok item)

/-- `passwordRoutes` PUT `/:id`: update a password item. Requires the caller
to be the owner or a member whose role is not `READ_ONLY`. -/
def updatePassword (cfg : Config) (db : DB)
    (userId itemId : String) (encryptedBlob : Option String) :
    DB × Except ApiError Unit :=
  match findItem db itemId with
  | none => (db, .error (.notFound "Password"))
  | some item =>
    match findVault db item.vaultId with
    | none => (db, .error .database)
    | some vault =>
      if !hasWriteAccess db vault userId then
        (db, .error (.forbidden "You do not have permission to update this password"))
      else
        let db1 := { db with
          items := db.items.map (fun i =>
            if i.id == itemId then
              { i with encryptedBlob := encryptedBlob.getD i.encryptedBlob }
            else i) }
        let db2 := AuditService.log cfg db1 userId "ITEM_UPDATED" itemId "item"
        (db2, .ok ())

/-- `passwordRoutes` DELETE `/:id`: delete a password item. Same write-access
check as update; then `prisma.item.delete` removes the row outright and
`ITEM_DELETED` is logged. -/
def deletePassword (cfg : Config) (db : DB) (userId itemId : String) :
    DB × Except ApiError Unit :=
  match findItem db itemId with
  | none => (db, .error (.notFound "Password"))
  | some item =>
    match findVault db item.vaultId with
    | none => (db, .error .database)
    | some vault =>
      if !hasWriteAccess db vault userId then
        (db, .error (.forbidden "You do not have permission to delete this password"))
      else
        let db1 := { db with items := db.items.filter (fun i => i.id != itemId) }
        let db2 := AuditService.log cfg db1 userId "ITEM_DELETED" itemId "item"
        (db2, .ok ())

/-- `itemRoutes` DELETE `/:id`: soft delete. A missing or already-deleted
item is `NotFound`; write access is owner or a member whose role is in
`['OWNER', 'ADMIN', 'MEMBER']` (the role enum cannot hold `OWNER`, so this
is `ADMIN` or `MEMBER`); then the row is kept with `isDeleted` set and a
deletion timestamp. -/
def deleteItem (cfg : Config) (db : DB) (userId itemId now : String) :
    DB × Except ApiError Unit :=
  match findItem db itemId with
  | none => (db, .error (.notFound "Item"))
  | some item =>
    if item.isDeleted then (db, .error (.notFound "Item"))
    else
      match findVault db item.vaultId with
      | none => (db, .error .database)
      | some vault =>
        let canDelete := vault.ownerId == userId ||
          (vaultMembersOf db vault.id).any (fun m =>
            m.userId == userId && (m.role == Role.ADMIN || m.role == Role.MEMBER))
        if !canDelete then
          (db, .error (.forbidden "You do not have permission to delete this item"))
        else
          let db1 := { db with
            items := db.items.map (fun i =>
              if i.id == itemId then { i with isDeleted := true, deletedAt := some now }
              else i) }
          let db2 := AuditService.log cfg db1 userId "ITEM_DELETED" itemId "item"
          (db2, .ok ())

/-- The per-caller vault details returned by GET `/:id` (the fields the
claims concern). -/
structure VaultDetails where
  id : String
  name : String
  encryptedVaultKey : String
  isOwner : Bool
deriving DecidableEq, Repr

/-- `vaultRoutes` GET `/:id`: vault details. A missing vault is `NotFound`;
an existing vault whose caller is neither owner nor member is `Forbidden`.
The returned `encryptedVaultKey` is the vault's own (owner) envelope for the
owner, otherwise the caller's own membership envelope (or `""`). A
`VAULT_ACCESSED` audit entry is emitted. -/
def getVault (cfg : Config) (db : DB) (userId vaultId : String) :
    DB × Except ApiError VaultDetails :=
  match findVault db vaultId with
  | none => (db, .error (.notFound "Vault"))
  | some vault =>
    if !hasAccess db vault userId then
      (db, .error (.forbidden "You do not have access to this vault"))
    else
      let key :=
        if vault.ownerId == userId then vault.encryptedVaultKey
        else
          match (vaultMembersOf db vault.id).find? (fun m => m.userId == userId) with
          | some m => m.encryptedVaultKey
          | none => ""
      let db1 := AuditService.log cfg db userId "VAULT_ACCESSED" vault.id "vault"
      (db1, .ok ⟨vault.id, vault.name, key, vault.ownerId == userId⟩)

/-- `vaultRoutes` GET `/:id/items`: list a vault's non-deleted items. Same
existence/access checks as GET `/:id`; filters `isDeleted: false`. -/
def getVaultItems (db : DB) (userId vaultId : String) :
    DB × Except ApiError (List Item) :=
  match findVault db vaultId with
  | none => (db, .error (.notFound "Vault"))
  | some vault =>
    if !hasAccess db vault userId then
      (db, .error (.forbidden "You do not have access to this vault"))
    else
      (db, .ok (db.items.filter (fun i => i.vaultId == vaultId && !i.isDeleted)))

/-- `createVaultSchema` / `addMemberSchema` envelope validation:
`z.string().min(50).max(500)`. -/
def validEnvelope (s : String) : Bool :=
  50 ≤ s.length && s.length ≤ 500

/-- `vaultRoutes` POST `/`: create a vault owned by the caller, then log
`VAULT_CREATED` with the new vault's id. -/
def createVault (cfg : Config) (db : DB)
    (userId name : String) (vtype : VaultType)
    (encryptedVaultKey newVaultId : String) :
    DB × Except ApiError Vault :=
  if !(1 ≤ name.length && name.length ≤ 100) || !validEnvelope encryptedVaultKey then
    (db, .error .validation)
  else
    let vault : Vault := ⟨newVaultId, name, vtype, userId, encryptedVaultKey⟩
    let db1 := { db with vaults := db.vaults ++ [vault] }
    let db2 := AuditService.log cfg db1 userId "VAULT_CREATED" newVaultId "vault"
    (db2, .ok vault)

/-- `vaultRoutes` PUT `/:id`: rename a vault. Only the owner may rename;
logs `VAULT_UPDATED`. -/
def updateVault (cfg : Config) (db : DB) (userId vaultId : String)
    (name : Option String) : DB × Except ApiError Unit :=
  if (match name with
      | some n => !(1 ≤ n.length && n.length ≤ 100)
      | none => false) then
    (db, .error .validation)
  else
    match findVault db vaultId with
    | none => (db, .error (.notFound "Vault"))
    | some vault =>
      if vault.ownerId != userId then
        (db, .error (.forbidden "Only the vault owner can update it"))
      else
        let db1 := { db with
          vaults := db.vaults.map (fun v =>
            if v.id == vaultId then { v with name := name.getD v.name } else v) }
        let db2 := AuditService.log cfg db1 userId "VAULT_UPDATED" vault.id "vault"
        (db2, .ok ())

/-- `vaultRoutes` DELETE `/:id`: delete a vault. A missing vault is
`NotFound`; only the owner may delete; `prisma.vault.delete` removes the
row; logs `VAULT_DELETED`. -/
def deleteVault (cfg : Config) (db : DB) (userId vaultId : String) :
    DB × Except ApiError Unit :=
  match findVault db vaultId with
  | none => (db, .error (.notFound "Vault"))
  | some vault =>
    if vault.ownerId != userId then
      (db, .error (.forbidden "Only the vault owner can delete it"))
    else
      let db1 := { db with vaults := db.vaults.filter (fun v => v.id != vaultId) }
      let db2 := AuditService.log cfg db1 userId "VAULT_DELETED" vault.id "vault"
      (db2, .ok ())

/-- The zod role enum `['ADMIN', 'MEMBER', 'READ_ONLY']`: any other string
(in particular `"OWNER"`) fails validation. -/
def parseRole (s : String) : Option Role :=
  if s == "ADMIN" then some .ADMIN
  else if s == "MEMBER" then some .MEMBER
  else if s == "READ_ONLY" then some .READ_ONLY
  else none

/-- `membership?.role === 'ADMIN'` on the caller's membership row of this
vault, combined with `vault.ownerId === userId`, as checked by the member
management handlers. -/
def isOwnerOrAdmin (db : DB) (vault : Vault) (userId : String) : Bool :=
  vault.ownerId == userId ||
    (match (vaultMembersOf db vault.id).find? (fun m => m.userId == userId) with
     | some m => m.role == Role.ADMIN
     | none => false)

/-- `vaultRoutes` POST `/:id/members`: add a member. Validates the role enum
and envelope; requires the caller to be owner or `ADMIN` of the vault; a
missing target user is a 404 reply; a target who already has a membership
row on this vault is a 409 conflict; otherwise a membership row with the
submitted role and envelope is inserted and `VAULT_MEMBER_ADDED` is logged
with the vault's id. -/
def addMember (cfg : Config) (db : DB)
    (userId vaultId userEmail roleStr encryptedVaultKey newMemberId : String) :
    DB × Except ApiError VaultMember :=
  match parseRole roleStr with
  | none => (db, .error .validation)
  | some role =>
    if !validEnvelope encryptedVaultKey then (db, .error .validation)
    else
      match findVault db vaultId with
      | none => (db, .error (.notFound "Vault"))
      | some vault =>
        if !isOwnerOrAdmin db vault userId then
          (db, .error (.forbidden "Only vault owner or admin can add members"))
        else
          match findUserByEmail db userEmail with
          | none => (db, .error (.notFound "User"))
          | some userToAdd =>
            match (vaultMembersOf db vault.id).find?
                (fun m => m.userId == userToAdd.id) with
            | some _ =>
              (db, .error (.conflict "User is already a member of this vault"))
            | none =>
              let newMember : VaultMember :=
                ⟨newMemberId, vaultId, userToAdd.id, role, encryptedVaultKey⟩
              let db1 := { db with members := db.members ++ [newMember] }
              let db2 :=
                AuditService.log cfg db1 userId "VAULT_MEMBER_ADDED" vault.id "vault"
              (db2, .ok newMember)

/-- `vaultRoutes` PUT `/:id/members/:memberId`: change a member's role.
Requires owner or `ADMIN` of the vault named in the URL; then
`prisma.vaultMember.update({ where: { id: memberId } })` updates the row
with that id wherever it lives — there is no check that the row belongs to
this vault; a missing row makes the update throw (a prisma error). Logs
`VAULT_MEMBER_UPDATED` with the URL vault's id. -/
def updateMemberRole (cfg : Config) (db : DB)
    (userId vaultId memberId roleStr : String) :
    DB × Except ApiError VaultMember :=
  match parseRole roleStr with
  | none => (db, .error .validation)
  | some role =>
    match findVault db vaultId with
    | none => (db, .error (.notFound "Vault"))
    | some vault =>
      if !isOwnerOrAdmin db vault userId then
        (db, .error (.forbidden "Only vault owner or admin can update member roles"))
      else
        match findMemberById db memberId with
        | none => (db, .error .database)
        | some m =>
          let updated := { m with role := role }
          let db1 := { db with
            members := db.members.map (fun x =>
              if x.id == memberId then { x with role := role } else x) }
          let db2 :=
            AuditService.log cfg db1 userId "VAULT_MEMBER_UPDATED" vault.id "vault"
          (db2, .ok updated)

/-- `vaultRoutes` DELETE `/:id/members/:memberId`: remove a member.
Requires owner or `ADMIN` of the URL vault; looks the membership row up by
`memberId` alone (`NotFound` if absent) and deletes it — again with no
check that the row belongs to this vault. Logs `VAULT_MEMBER_REMOVED` with
the URL vault's id. -/
def removeMember (cfg : Config) (db : DB)
    (userId vaultId memberId : String) : DB × Except ApiError Unit :=
  match findVault db vaultId with
  | none => (db, .error (.notFound "Vault"))
  | some vault =>
    if !isOwnerOrAdmin db vault userId then
      (db, .error (.forbidden "Only vault owner or admin can remove members"))
    else
      match findMemberById db memberId with
      | none => (db, .error (.notFound "Member"))
      | some _ =>
        let db1 := { db with members := db.members.filter (fun m => m.id != memberId) }
        let db2 :=
          AuditService.log cfg db1 userId "VAULT_MEMBER_REMOVED" vault.id "vault"
        (db2, .ok ())

/-- `authRoutes` POST `/change-password`: verifies the current verifier,
then inside one `prisma.$transaction` sets the new verifier and runs
`vault.updateMany({ where: { ownerId }, data: { encryptedVaultKey } })` over
every vault owned by the caller. A transaction failure (`cfg.txFails`)
rolls the whole batch back and surfaces an error with the store unchanged. -/
def changePassword (cfg : Config) (db : DB)
    (userId currentPasswordVerifier newPasswordVerifier newEncryptedVaultKey : String) :
    DB × Except ApiError Unit :=
  if currentPasswordVerifier.length == 0 || newPasswordVerifier.length == 0
      || !validEnvelope newEncryptedVaultKey then
    (db, .error .validation)
  else
    match findUserById db userId with
    | none => (db, .error (.unauthorized "Current password is incorrect"))
    | some user =>
      if user.passwordVerifier != currentPasswordVerifier then
        (db, .error (.unauthorized "Current password is incorrect"))
      else if cfg.txFails then
        (db, .error .database)
      else
        let db1 := { db with
          users := db.users.map (fun u =>
            if u.id == userId then { u with passwordVerifier := newPasswordVerifier }
            else u),
          vaults := db.vaults.map (fun v =>
            if v.ownerId == userId then { v with encryptedVaultKey := newEncryptedVaultKey }
            else v) }
        (db1, .ok ())

/-! ### Concrete fixtures

A small store used to evaluate the handlers on concrete inputs: principal
`A` owns vault `v1` with `B` as a `READ_ONLY` member and one item `i1`;
principal `C` owns vault `v2` with `D` as a `MEMBER`. -/

/-- A well-formed envelope string (60 characters, within the 50–500 zod
bounds). -/
def mkEnv (c : Char) : String := String.mk (List.replicate 60 c)

def envA : String := mkEnv 'A'

def envB : String := mkEnv 'B'

def envC : String := mkEnv 'C'

def envD : String := mkEnv 'D'

def envX : String := mkEnv 'X'

/-- Audit logging enabled and no injected failures. -/
def cfgOn : Config := ⟨true, false, false⟩

/-- Audit logging disabled (`ENABLE_AUDIT_LOGS` unset), no failures. -/
def cfgOff : Config := ⟨false, false, false⟩

/-- Audit logging enabled but `prisma.auditLog.create` throws. -/
def cfgAuditFail : Config := ⟨true, true, false⟩

def userA : User := ⟨"A", "a@x.com", "pwA"⟩

def userB : User := ⟨"B", "b@x.com", "pwB"⟩

def userC : User := ⟨"C", "c@x.com", "pwC"⟩

def userD : User := ⟨"D", "d@x.com", "pwD"⟩

def vault1 : Vault := ⟨"v1", "Vault One", .PERSONAL, "A", envA⟩

def vault2 : Vault := ⟨"v2", "Vault Two", .GROUP, "C", envC⟩

def memB : VaultMember := ⟨"m1", "v1", "B", .READ_ONLY, envB⟩

def memD : VaultMember := ⟨"m2", "v2", "D", .MEMBER, envD⟩

def item1 : Item := ⟨"i1", "v1", "blob1", false, none⟩

def baseDB : DB :=
  ⟨[userA, userB, userC, userD], [vault1, vault2], [memB, memD], [item1], []⟩

/-! ### Helper lemmas -/

lemma log_of_auditFail {cfg : Config} (h : cfg.auditCreateFails = true)
    (db : DB) (u a t tt : String) :
    AuditService.log cfg db u a t tt = db := by
  unfold AuditService.log
  rcases hE : cfg.enableAuditLogs <;> simp [hE, h]

lemma log_of_ok {cfg : Config} (hE : cfg.enableAuditLogs = true)
    (hF : cfg.auditCreateFails = false) (db : DB) (u a t tt : String) :
    AuditService.log cfg db u a t tt
      = { db with auditLog := db.auditLog ++ [⟨u, a, t, tt⟩] } := by
  unfold AuditService.log
  simp [hE, hF]

lemma log_of_disabled {cfg : Config} (h : cfg.enableAuditLogs = false)
    (db : DB) (u a t tt : String) :
    AuditService.log cfg db u a t tt = db := by
  unfold AuditService.log
  simp [h]

lemma log_vaults (cfg : Config) (db : DB) (u a t tt : String) :
    (AuditService.log cfg db u a t tt).vaults = db.vaults := by
  unfold AuditService.log
  rcases hE : cfg.enableAuditLogs <;> rcases hF : cfg.auditCreateFails <;> simp [hE, hF]

lemma log_members (cfg : Config) (db : DB) (u a t tt : String) :
    (AuditService.log cfg db u a t tt).members = db.members := by
  unfold AuditService.log
  rcases hE : cfg.enableAuditLogs <;> rcases hF : cfg.auditCreateFails <;> simp [hE, hF]

lemma log_items (cfg : Config) (db : DB) (u a t tt : String) :
    (AuditService.log cfg db u a t tt).items = db.items := by
  unfold AuditService.log
  rcases hE : cfg.enableAuditLogs <;> rcases hF : cfg.auditCreateFails <;> simp [hE, hF]

lemma find?_append_of_none {α : Type} {p : α → Bool} {l₁ l₂ : List α}
    (h : l₁.find? p = none) : (l₁ ++ l₂).find? p = l₂.find? p := by
  induction l₁ with
  | nil => rfl
  | cons x xs ih =>
    rw [List.find?_cons] at h
    rcases hx : p x with _ | _
    · rw [hx] at h
      simp only [List.cons_append, List.find?_cons, hx]
      exact ih h
    · rw [hx] at h
      cases h

lemma find?_filter_id_ne {l : List Vault} {k : String} :
    (l.filter (fun x => x.id != k)).find? (fun x => x.id == k) = none := by
  rw [List.find?_eq_none]
  intro x hx
  have := (List.mem_filter.mp hx).2
  simpa using this

lemma findVault_id {db : DB} {vaultId : String} {v : Vault}
    (h : findVault db vaultId = some v) : v.id = vaultId := by
  have := List.find?_some h
  simpa using this

lemma findUserByEmail_email {db : DB} {email : String} {u : User}
    (h : findUserByEmail db email = some u) : u.email = email := by
  have := List.find?_some h
  simpa using this

lemma parseRole_ne_owner {s : String} {r : Role} (h : parseRole s = some r) :
    s ≠ "OWNER" := by
  intro hs
  subst hs
  simp [parseRole] at h

/-- Success characterization of vault creation: the result state and value
are fully determined. -/
lemma createVault_ok_eq {cfg : Config} {db : DB}
    {userId name env nvid : String} {vtype : VaultType} {v : Vault}
    (hr : (createVault cfg db userId name vtype env nvid).2 = .ok v) :
    createVault cfg db userId name vtype env nvid
      = (AuditService.log cfg
          { db with vaults := db.vaults ++ [⟨nvid, name, vtype, userId, env⟩] }
          userId "VAULT_CREATED" nvid "vault",
         .ok ⟨nvid, name, vtype, userId, env⟩) := by
  unfold createVault at hr ⊢
  split at hr
  · exact absurd hr (by simp)
  · next hval =>
    split
    · next h2 => exact absurd h2 hval
    · rfl

/-- Success characterization of vault rename. -/
lemma updateVault_ok_eq {cfg : Config} {db : DB} {userId vaultId : String}
    {oname : Option String} {r : Unit}
    (hr : (updateVault cfg db userId vaultId oname).2 = .ok r) :
    ∃ v, findVault db vaultId = some v ∧ v.ownerId = userId ∧
      updateVault cfg db userId vaultId oname
        = (AuditService.log cfg
            { db with vaults := db.vaults.map (fun x =>
                if x.id == vaultId then { x with name := oname.getD x.name } else x) }
            userId "VAULT_UPDATED" v.id "vault",
           .ok ()) := by
  unfold updateVault at hr ⊢
  split at hr
  · exact absurd hr (by simp)
  · next hval =>
    split at hr
    · exact absurd hr (by simp)
    · next v heq =>
      split at hr
      · exact absurd hr (by simp)
      · next hown =>
        refine ⟨v, heq, by simpa using hown, ?_⟩
        split
        · next h2 => exact absurd h2 hval
        · rfl

/-- Success characterization of vault deletion. -/
lemma deleteVault_ok_eq {cfg : Config} {db : DB} {userId vaultId : String}
    {r : Unit}
    (hr : (deleteVault cfg db userId vaultId).2 = .ok r) :
    ∃ v, findVault db vaultId = some v ∧ v.ownerId = userId ∧
      deleteVault cfg db userId vaultId
        = (AuditService.log cfg
            { db with vaults := db.vaults.filter (fun x => x.id != vaultId) }
            userId "VAULT_DELETED" v.id "vault",
           .ok ()) := by
  unfold deleteVault at hr ⊢
  split at hr
  · exact absurd hr (by simp)
  · next v heq =>
    split at hr
    · exact absurd hr (by simp)
    · next hown =>
      refine ⟨v, heq, by simpa using hown, ?_⟩
      split
      · next h2 => exact absurd h2 hown
      · rfl

/-- A delete of a vault id that does not resolve reports `NotFound`. -/
lemma deleteVault_notFound {cfg : Config} {db : DB} {userId vaultId : String}
    (h : findVault db vaultId = none) :
    (deleteVault cfg db userId vaultId).2 = .error (.notFound "Vault") := by
  unfold deleteVault
  rw [h]

/-- Success characterization of adding a member: all guards passed and the
inserted membership row carries exactly the submitted role and envelope. -/
lemma addMember_ok_eq {cfg : Config} {db : DB}
    {userId vaultId email roleStr env nmid : String} {m : VaultMember}
    (hr : (addMember cfg db userId vaultId email roleStr env nmid).2 = .ok m) :
    ∃ role v tu, parseRole roleStr = some role
      ∧ validEnvelope env = true
      ∧ findVault db vaultId = some v
      ∧ isOwnerOrAdmin db v userId = true
      ∧ findUserByEmail db email = some tu
      ∧ (vaultMembersOf db v.id).find? (fun x => x.userId == tu.id) = none
      ∧ m = ⟨nmid, vaultId, tu.id, role, env⟩
      ∧ addMember cfg db userId vaultId email roleStr env nmid
        = (AuditService.log cfg { db with members := db.members ++ [m] }
            userId "VAULT_MEMBER_ADDED" v.id "vault",
           .ok m) := by
  unfold addMember at hr ⊢
  split at hr
  · exact absurd hr (by simp)
  · next role hrole =>
    split at hr
    · exact absurd hr (by simp)
    · next henv =>
      split at hr
      · exact absurd hr (by simp)
      · next v heqv =>
        split at hr
        · exact absurd hr (by simp)
        · next hOA =>
          split at hr
          · exact absurd hr (by simp)
          · next tu htu =>
            split at hr
            · exact absurd hr (by simp)
            · next hnone =>
              simp only [Except.ok.injEq] at hr
              subst hr
              refine ⟨role, v, tu, hrole, by simpa using henv, heqv,
                by simpa using hOA, htu, hnone, rfl, ?_⟩
              split
              · next h2 => exact absurd h2 henv
              · rfl

/-- Success characterization of the member-role update: the row is looked
up by `memberId` alone and rewritten with the new role. -/
lemma updateMemberRole_ok_eq {cfg : Config} {db : DB}
    {userId vaultId memberId roleStr : String} {m : VaultMember}
    (hr : (updateMemberRole cfg db userId vaultId memberId roleStr).2 = .ok m) :
    ∃ role v m0, parseRole roleStr = some role
      ∧ findVault db vaultId = some v
      ∧ isOwnerOrAdmin db v userId = true
      ∧ findMemberById db memberId = some m0
      ∧ m = { m0 with role := role }
      ∧ updateMemberRole cfg db userId vaultId memberId roleStr
        = (AuditService.log cfg
            { db with members := db.members.map (fun x =>
                if x.id == memberId then { x with role := role } else x) }
            userId "VAULT_MEMBER_UPDATED" v.id "vault",
           .ok m) := by
  unfold updateMemberRole at hr ⊢
  split at hr
  · exact absurd hr (by simp)
  · next role hrole =>
    split at hr
    · exact absurd hr (by simp)
    · next v heqv =>
      split at hr
      · exact absurd hr (by simp)
      · next hOA =>
        split at hr
        · exact absurd hr (by simp)
        · next m0 hm0 =>
          simp only [Except.ok.injEq] at hr
          subst hr
          refine ⟨role, v, m0, hrole, heqv, by simpa using hOA, hm0, rfl, ?_⟩
          split
          · next h2 => exact absurd h2 hOA
          · rfl

/-- Success characterization of member removal: the row is looked up and
deleted by `memberId` alone. -/
lemma removeMember_ok_eq {cfg : Config} {db : DB}
    {userId vaultId memberId : String} {r : Unit}
    (hr : (removeMember cfg db userId vaultId memberId).2 = .ok r) :
    ∃ v m0, findVault db vaultId = some v
      ∧ isOwnerOrAdmin db v userId = true
      ∧ findMemberById db memberId = some m0
      ∧ removeMember cfg db userId vaultId memberId
        = (AuditService.log cfg
            { db with members := db.members.filter (fun x => x.id != memberId) }
            userId "VAULT_MEMBER_REMOVED" v.id "vault",
           .ok ()) := by
  unfold removeMember at hr ⊢
  split at hr
  · exact absurd hr (by simp)
  · next v heqv =>
    split at hr
    · exact absurd hr (by simp)
    · next hOA =>
      split at hr
      · exact absurd hr (by simp)
      · next m0 hm0 =>
        refine ⟨v, m0, heqv, by simpa using hOA, hm0, ?_⟩
        split
        · next h2 => exact absurd h2 hOA
        · rfl

/-- Exhaustive case analysis of the change-password handler: it either
leaves the store untouched with an error, or applies the full batch. -/
lemma changePassword_result (cfg : Config) (db : DB)
    (userId cur new key : String) :
    changePassword cfg db userId cur new key = (db, .error .validation)
    ∨ changePassword cfg db userId cur new key
        = (db, .error (.unauthorized "Current password is incorrect"))
    ∨ changePassword cfg db userId cur new key = (db, .error .database)
    ∨ (∃ user, findUserById db userId = some user
        ∧ user.passwordVerifier = cur
        ∧ changePassword cfg db userId cur new key
          = ({ db with
                users := db.users.map (fun u =>
                  if u.id == userId then { u with passwordVerifier := new } else u),
                vaults := db.vaults.map (fun v =>
                  if v.ownerId == userId then { v with encryptedVaultKey := key }
                  else v) },
             .ok ())) := by
  unfold changePassword
  split
  · exact Or.inl rfl
  · split
    · exact Or.inr (Or.inl rfl)
    · next user huser =>
      split
      · exact Or.inr (Or.inl rfl)
      · next hver =>
        split
        · exact Or.inr (Or.inr (Or.inl rfl))
        · exact Or.inr (Or.inr (Or.inr ⟨user, huser, by simpa using hver, rfl⟩))

/-! ### Claim theorems -/

/-- C1: the spec says a `READ_ONLY` member's item writes are all denied
with `Forbidden`. On the code, update and delete are indeed denied, but the
create-item handler checks membership without looking at the role, so the
`READ_ONLY` member `B` successfully creates an item in vault `v1` — the
code contradicts the spec's scenario and the repository's own description
of `READ_ONLY` as view-only. -/
theorem C1_readonly_member_can_create_item :
    (createPassword cfgOn baseDB "B" "v1" "newblob" "i9").2
      = .ok ⟨"i9", "v1", "newblob", false, none⟩
    ∧ (updatePassword cfgOn baseDB "B" "i1" (some "x")).2
      = .error (.forbidden "You do not have permission to update this password")
    ∧ (deletePassword cfgOn baseDB "B" "i1").2
      = .error (.forbidden "You do not have permission to delete this password") :=
  ⟨rfl, rfl, rfl⟩

/-- C7: the spec says the public item delete is a soft delete. The
password-route delete handler instead removes the row from the store
outright (`prisma.item.delete`), while the item-route delete it aliases
keeps the row with the deletion flag and timestamp set — evaluated here on
the owner deleting item `i1`. -/
theorem C7_password_route_delete_is_hard_delete :
    (deletePassword cfgOn baseDB "A" "i1").2 = .ok ()
    ∧ (deletePassword cfgOn baseDB "A" "i1").1.items.find? (fun i => i.id == "i1")
      = none
    ∧ (deleteItem cfgOn baseDB "A" "i1" "t1").1.items.find? (fun i => i.id == "i1")
      = some ⟨"i1", "v1", "blob1", true, some "t1"⟩ :=
  ⟨rfl, rfl, rfl⟩

/-- C10: the member-role update and member removal handlers authorize the
caller against the vault named in the URL but then mutate the membership
row keyed by `memberId` alone. Principal `A`, owner of vault `v1` only,
successfully changes the role of — and deletes — membership `m2`, which
belongs to vault `v2`. -/
theorem C10_member_mutation_crosses_vaults :
    (updateMemberRole cfgOn baseDB "A" "v1" "m2" "ADMIN").2
      = .ok ⟨"m2", "v2", "D", .ADMIN, envD⟩
    ∧ (updateMemberRole cfgOn baseDB "A" "v1" "m2" "ADMIN").1.members.find?
        (fun m => m.id == "m2") = some ⟨"m2", "v2", "D", .ADMIN, envD⟩
    ∧ (removeMember cfgOn baseDB "A" "v1" "m2").2 = .ok ()
    ∧ (removeMember cfgOn baseDB "A" "v1" "m2").1.members.find?
        (fun m => m.id == "m2") = none :=
  ⟨rfl, rfl, rfl, rfl⟩

/-- C2 counterexample: vault `v1` exists and principal `C` is neither its
owner nor a member, yet both reads return `Forbidden`, not `NotFound` — the
vault's existence is revealed. -/
theorem C2_counterexample_forbidden_reveals_existence :
    findVault baseDB "v1" = some vault1
    ∧ (getVault cfgOn baseDB "C" "v1").2
      = .error (.forbidden "You do not have access to this vault")
    ∧ (getVaultItems baseDB "C" "v1").2
      = .error (.forbidden "You do not have access to this vault") :=
  ⟨rfl, rfl, rfl⟩

/-- C2 amended: for every existing vault and caller with no ownership or
membership on it, the vault-details and vault-items reads are denied with
`Forbidden` (revealing the vault's existence); `NotFound` is reserved for a
vault id that does not exist. -/
theorem C2_unauthorized_read_is_forbidden
    (cfg : Config) (db : DB) (userId vaultId : String) (v : Vault)
    (hv : findVault db vaultId = some v)
    (hacc : hasAccess db v userId = false) :
    (getVault cfg db userId vaultId).2
      = .error (.forbidden "You do not have access to this vault")
    ∧ (getVaultItems db userId vaultId).2
      = .error (.forbidden "You do not have access to this vault")
    ∧ (∀ w, findVault db w = none →
        (getVault cfg db userId w).2 = .error (.notFound "Vault")) := by
  refine ⟨?_, ?_, fun w hw => ?_⟩
  · unfold getVault
    simp [hv, hacc]
  · unfold getVaultItems
    simp [hv, hacc]
  · unfold getVault
    simp [hw]

/-- C2 witness: the amended theorem applied to principal `C` and vault
`v1`. -/
theorem C2_witness :
    (getVault cfgOn baseDB "C" "v1").2
      = .error (.forbidden "You do not have access to this vault") :=
  (C2_unauthorized_read_is_forbidden cfgOn baseDB "C" "v1" vault1 rfl rfl).1

/-- C3 counterexample: with audit logging enabled but the
`prisma.auditLog.create` insert failing, creating a vault still returns
success and the audit log stays empty — the enclosing operation does not
fail when its audit append fails. -/
theorem C3_counterexample_audit_failure_not_propagated :
    (createVault cfgAuditFail baseDB "A" "New Vault" .PERSONAL envX "v9").2
      = .ok ⟨"v9", "New Vault", .PERSONAL, "A", envX⟩
    ∧ (createVault cfgAuditFail baseDB "A" "New Vault" .PERSONAL envX "v9").1.auditLog
      = [] :=
  ⟨rfl, rfl⟩

/-- C3 amended: `AuditService.log` wraps the insert in try/catch, so a
failing audit append is swallowed: every mutating operation leaves the
audit log unchanged and returns exactly the outcome it would return had the
append succeeded. -/
theorem C3_audit_failure_swallowed
    (cfg : Config) (db : DB) (h : cfg.auditCreateFails = true)
    (userId vaultId itemId memberId email roleStr blob name env rid now : String)
    (vtype : VaultType) (oblob oname : Option String) :
    ((createPassword cfg db userId vaultId blob rid).1.auditLog = db.auditLog
      ∧ (createPassword cfg db userId vaultId blob rid).2
        = (createPassword { cfg with auditCreateFails := false } db userId vaultId blob rid).2)
    ∧ ((updatePassword cfg db userId itemId oblob).1.auditLog = db.auditLog
      ∧ (updatePassword cfg db userId itemId oblob).2
        = (updatePassword { cfg with auditCreateFails := false } db userId itemId oblob).2)
    ∧ ((deletePassword cfg db userId itemId).1.auditLog = db.auditLog
      ∧ (deletePassword cfg db userId itemId).2
        = (deletePassword { cfg with auditCreateFails := false } db userId itemId).2)
    ∧ ((deleteItem cfg db userId itemId now).1.auditLog = db.auditLog
      ∧ (deleteItem cfg db userId itemId now).2
        = (deleteItem { cfg with auditCreateFails := false } db userId itemId now).2)
    ∧ ((createVault cfg db userId name vtype env rid).1.auditLog = db.auditLog
      ∧ (createVault cfg db userId name vtype env rid).2
        = (createVault { cfg with auditCreateFails := false } db userId name vtype env rid).2)
    ∧ ((updateVault cfg db userId vaultId oname).1.auditLog = db.auditLog
      ∧ (updateVault cfg db userId vaultId oname).2
        = (updateVault { cfg with auditCreateFails := false } db userId vaultId oname).2)
    ∧ ((deleteVault cfg db userId vaultId).1.auditLog = db.auditLog
      ∧ (deleteVault cfg db userId vaultId).2
        = (deleteVault { cfg with auditCreateFails := false } db userId vaultId).2)
    ∧ ((addMember cfg db userId vaultId email roleStr env rid).1.auditLog = db.auditLog
      ∧ (addMember cfg db userId vaultId email roleStr env rid).2
        = (addMember { cfg with auditCreateFails := false } db userId vaultId email roleStr env rid).2)
    ∧ ((updateMemberRole cfg db userId vaultId memberId roleStr).1.auditLog = db.auditLog
      ∧ (updateMemberRole cfg db userId vaultId memberId roleStr).2
        = (updateMemberRole { cfg with auditCreateFails := false } db userId vaultId memberId roleStr).2)
    ∧ ((removeMember cfg db userId vaultId memberId).1.auditLog = db.auditLog
      ∧ (removeMember cfg db userId vaultId memberId).2
        = (removeMember { cfg with auditCreateFails := false } db userId vaultId memberId).2) := by
  have hlog : ∀ (db' : DB) (u a t tt : String),
      AuditService.log cfg db' u a t tt = db' :=
    fun db' u a t tt => log_of_auditFail h db' u a t tt
  refine ⟨⟨?_, ?_⟩, ⟨?_, ?_⟩, ⟨?_, ?_⟩, ⟨?_, ?_⟩, ⟨?_, ?_⟩, ⟨?_, ?_⟩, ⟨?_, ?_⟩,
    ⟨?_, ?_⟩, ⟨?_, ?_⟩, ⟨?_, ?_⟩⟩ <;>
  · simp only [createPassword, updatePassword, deletePassword, deleteItem,
      createVault, updateVault, deleteVault, addMember, updateMemberRole,
      removeMember, hlog]
    repeat' split
    all_goals rfl

/-- C3 witness: the amended theorem applied with a failing audit insert to
the fixture store: vault creation leaves the audit log unchanged. -/
theorem C3_witness :
    (createVault cfgAuditFail baseDB "A" "Wit Vault" .PERSONAL envX "v8").1.auditLog
      = baseDB.auditLog :=
  (C3_audit_failure_swallowed cfgAuditFail baseDB rfl
    "A" "v1" "i1" "m1" "a@x.com" "MEMBER" "blob" "Wit Vault" envX "v8" "t0"
    .PERSONAL none none).2.2.2.2.1.1

/-- C4 counterexample: with `ENABLE_AUDIT_LOGS` unset, a successful vault
creation appends zero audit entries, not exactly one. -/
theorem C4_counterexample_no_entry_when_disabled :
    (createVault cfgOff baseDB "A" "New Vault" .PERSONAL envX "v9").2
      = .ok ⟨"v9", "New Vault", .PERSONAL, "A", envX⟩
    ∧ (createVault cfgOff baseDB "A" "New Vault" .PERSONAL envX "v9").1.auditLog
      = [] :=
  ⟨rfl, rfl⟩

/-- C4 amended: when audit logging is enabled and the insert succeeds, each
successful mutating call on a vault or membership appends exactly one audit
entry whose targetId is the id of the vault named in the call (membership
operations log the vault's id, not the membership row's). -/
theorem C4_one_audit_entry_per_mutation
    (cfg : Config) (db : DB)
    (hE : cfg.enableAuditLogs = true) (hF : cfg.auditCreateFails = false)
    (userId vaultId memberId email roleStr name env nvid nmid : String)
    (vtype : VaultType) (oname : Option String) :
    (∀ v, (createVault cfg db userId name vtype env nvid).2 = .ok v →
      (createVault cfg db userId name vtype env nvid).1.auditLog
        = db.auditLog ++ [⟨userId, "VAULT_CREATED", nvid, "vault"⟩] ∧ v.id = nvid)
    ∧ (∀ r : Unit, (updateVault cfg db userId vaultId oname).2 = .ok r →
      (updateVault cfg db userId vaultId oname).1.auditLog
        = db.auditLog ++ [⟨userId, "VAULT_UPDATED", vaultId, "vault"⟩])
    ∧ (∀ r : Unit, (deleteVault cfg db userId vaultId).2 = .ok r →
      (deleteVault cfg db userId vaultId).1.auditLog
        = db.auditLog ++ [⟨userId, "VAULT_DELETED", vaultId, "vault"⟩])
    ∧ (∀ m, (addMember cfg db userId vaultId email roleStr env nmid).2 = .ok m →
      (addMember cfg db userId vaultId email roleStr env nmid).1.auditLog
        = db.auditLog ++ [⟨userId, "VAULT_MEMBER_ADDED", vaultId, "vault"⟩])
    ∧ (∀ m, (updateMemberRole cfg db userId vaultId memberId roleStr).2 = .ok m →
      (updateMemberRole cfg db userId vaultId memberId roleStr).1.auditLog
        = db.auditLog ++ [⟨userId, "VAULT_MEMBER_UPDATED", vaultId, "vault"⟩])
    ∧ (∀ r : Unit, (removeMember cfg db userId vaultId memberId).2 = .ok r →
      (removeMember cfg db userId vaultId memberId).1.auditLog
        = db.auditLog ++ [⟨userId, "VAULT_MEMBER_REMOVED", vaultId, "vault"⟩]) := by
  refine ⟨?_, ?_, ?_, ?_, ?_, ?_⟩
  · intro v hv
    have h := createVault_ok_eq hv
    rw [h] at hv
    simp only [Except.ok.injEq] at hv
    subst hv
    exact ⟨by rw [h]; simp [log_of_ok hE hF], rfl⟩
  · intro r hr
    obtain ⟨v, hv, _, h⟩ := updateVault_ok_eq hr
    rw [h]
    simp [log_of_ok hE hF, findVault_id hv]
  · intro r hr
    obtain ⟨v, hv, _, h⟩ := deleteVault_ok_eq hr
    rw [h]
    simp [log_of_ok hE hF, findVault_id hv]
  · intro m hm
    obtain ⟨role, v, tu, _, _, hv, _, _, _, _, h⟩ := addMember_ok_eq hm
    rw [h]
    simp [log_of_ok hE hF, findVault_id hv]
  · intro m hm
    obtain ⟨role, v, m0, _, hv, _, _, _, h⟩ := updateMemberRole_ok_eq hm
    rw [h]
    simp [log_of_ok hE hF, findVault_id hv]
  · intro r hr
    obtain ⟨v, m0, hv, _, _, h⟩ := removeMember_ok_eq hr
    rw [h]
    simp [log_of_ok hE hF, findVault_id hv]

/-- C4 witness: the amended theorem applied to a concrete vault creation
with audit logging enabled. -/
theorem C4_witness :
    (createVault cfgOn baseDB "A" "Wit4" .PERSONAL envX "v7").1.auditLog
      = baseDB.auditLog ++ [⟨"A", "VAULT_CREATED", "v7", "vault"⟩] :=
  ((C4_one_audit_entry_per_mutation cfgOn baseDB rfl rfl "A" "v1" "m1" "c@x.com"
      "MEMBER" "Wit4" envX "v7" "m7" .PERSONAL none).1
    ⟨"v7", "Wit4", .PERSONAL, "A", envX⟩ rfl).1

/-- C5: credential rotation is all-or-nothing. On success the stored
verifier is the new one and every vault owned by the caller carries the new
envelope; on any error the store is returned unchanged — no partial
rotation is observable. -/
theorem C5_rotation_all_or_nothing
    (cfg : Config) (db : DB) (userId cur new key : String) :
    ((changePassword cfg db userId cur new key).2 = .ok () →
      (changePassword cfg db userId cur new key).1.users.all
        (fun u => u.id != userId || u.passwordVerifier == new) = true
      ∧ (changePassword cfg db userId cur new key).1.vaults.all
        (fun v => v.ownerId != userId || v.encryptedVaultKey == key) = true)
    ∧ (∀ e, (changePassword cfg db userId cur new key).2 = .error e →
      (changePassword cfg db userId cur new key).1 = db) := by
  rcases changePassword_result cfg db userId cur new key with h | h | h | ⟨user, _, _, h⟩
  · refine ⟨fun hok => ?_, fun e _ => by rw [h]⟩
    rw [h] at hok
    exact absurd hok (by simp)
  · refine ⟨fun hok => ?_, fun e _ => by rw [h]⟩
    rw [h] at hok
    exact absurd hok (by simp)
  · refine ⟨fun hok => ?_, fun e _ => by rw [h]⟩
    rw [h] at hok
    exact absurd hok (by simp)
  · refine ⟨fun _ => ⟨?_, ?_⟩, fun e he => ?_⟩
    · rw [h]
      simp only [List.all_eq_true]
      intro u hu
      rcases List.mem_map.mp hu with ⟨u0, _, rfl⟩
      by_cases hid : (u0.id == userId) = true
      · simp [hid]
      · simp only [Bool.not_eq_true] at hid
        simp [hid]
        exact Or.inl (fun hEq => by simp [hEq] at hid)
    · rw [h]
      simp only [List.all_eq_true]
      intro v hv
      rcases List.mem_map.mp hv with ⟨v0, _, rfl⟩
      by_cases hid : (v0.ownerId == userId) = true
      · simp [hid]
      · simp only [Bool.not_eq_true] at hid
        simp [hid]
        exact Or.inl (fun hEq => by simp [hEq] at hid)
    · rw [h] at he
      exact absurd he (by simp)

/-- C5 witness: rotating principal `A`'s credential on the fixture store
leaves every vault owned by `A` carrying the new envelope. -/
theorem C5_witness :
    (changePassword cfgOn baseDB "A" "pwA" "newpw" envX).1.vaults.all
      (fun v => v.ownerId != "A" || v.encryptedVaultKey == envX) = true :=
  ((C5_rotation_all_or_nothing cfgOn baseDB "A" "pwA" "newpw" envX).1 rfl).2

/-- C6 counterexample: adding the vault's owner as a member does not fail
with `Conflict`. Principal `A` owns `v1` and is not represented by a
membership row, so the already-a-member check passes and `A` is inserted as
an ordinary member of their own vault. -/
theorem C6_counterexample_owner_add_no_conflict :
    vault1.ownerId = "A" ∧ userA.email = "a@x.com"
    ∧ (addMember cfgOn baseDB "A" "v1" "a@x.com" "MEMBER" envX "m9").2
      = .ok ⟨"m9", "v1", "A", .MEMBER, envX⟩ :=
  ⟨rfl, rfl, rfl⟩

/-- C6 amended: `addMember` requires the caller to be the vault's owner or
an `ADMIN` member; it fails with `Conflict` when the target already has a
membership row on the vault; the assigned role can never be `OWNER` (the
role enum rejects it). Adding the vault's owner, however, does not
conflict: the owner holds no membership row, so the duplicate check passes
and the owner is added as an ordinary member. -/
theorem C6_addMember_guards
    (cfg : Config) (db : DB) (userId vaultId email roleStr env nmid : String) :
    (∀ m, (addMember cfg db userId vaultId email roleStr env nmid).2 = .ok m →
      (∃ v, findVault db vaultId = some v ∧ isOwnerOrAdmin db v userId = true)
      ∧ roleStr ≠ "OWNER"
      ∧ (vaultMembersOf db vaultId).find? (fun x => x.userId == m.userId) = none)
    ∧ (∀ v u x, findVault db vaultId = some v →
        isOwnerOrAdmin db v userId = true →
        parseRole roleStr ≠ none →
        validEnvelope env = true →
        findUserByEmail db email = some u →
        (vaultMembersOf db vaultId).find? (fun m0 => m0.userId == u.id) = some x →
        (addMember cfg db userId vaultId email roleStr env nmid).2
          = .error (.conflict "User is already a member of this vault")) := by
  constructor
  · intro m hm
    obtain ⟨role, v, tu, hrole, henv, hv, hOA, htu, hnone, hmEq, hAdd⟩ :=
      addMember_ok_eq hm
    have hid := findVault_id hv
    subst hmEq
    rw [hid] at hnone
    exact ⟨⟨v, hv, hOA⟩, parseRole_ne_owner hrole, hnone⟩
  · intro v u x hv hOA hrole henv hu hx
    rcases hpr : parseRole roleStr with _ | role
    · exact absurd hpr hrole
    · have hid := findVault_id hv
      unfold addMember
      simp [hpr, henv, hv, hOA, hu, hid, hx]

/-- C6 witness: the amended theorem applied to adding `B` — already a
member of `v1` — a second time, which conflicts. -/
theorem C6_witness :
    (addMember cfgOn baseDB "A" "v1" "b@x.com" "MEMBER" envX "m9").2
      = .error (.conflict "User is already a member of this vault") :=
  (C6_addMember_guards cfgOn baseDB "A" "v1" "b@x.com" "MEMBER" envX "m9").2
    vault1 userB memB rfl rfl (by decide) rfl rfl rfl

/-- C8: envelope round trip. After a successful `addMember` that stored
envelope `env` for the new member, an authorized vault read by that member
returns exactly `env` (their own membership row's envelope), and a read by
the owner returns the vault's own owner envelope. -/
theorem C8_envelope_round_trip
    (cfg cfg2 : Config) (db : DB)
    (userId vaultId email roleStr env nmid : String) (m : VaultMember) (v : Vault)
    (hm : (addMember cfg db userId vaultId email roleStr env nmid).2 = .ok m)
    (hv : findVault db vaultId = some v)
    (hno : m.userId ≠ v.ownerId) :
    (getVault cfg2 (addMember cfg db userId vaultId email roleStr env nmid).1
        m.userId vaultId).2 = .ok ⟨vaultId, v.name, env, false⟩
    ∧ (getVault cfg2 (addMember cfg db userId vaultId email roleStr env nmid).1
        v.ownerId vaultId).2
      = .ok ⟨vaultId, v.name, v.encryptedVaultKey, true⟩ := by
  obtain ⟨role, v', tu, hrole, henv, hv', hOA, htu, hnone, hmEq, hAdd⟩ :=
    addMember_ok_eq hm
  rw [hv'] at hv
  injection hv with hvv
  subst hvv
  have hid := findVault_id hv'
  subst hmEq
  have hno' : tu.id ≠ v'.ownerId := hno
  have hvaults : (addMember cfg db userId vaultId email roleStr env nmid).1.vaults
      = db.vaults := by
    rw [hAdd]
    exact log_vaults cfg _ userId "VAULT_MEMBER_ADDED" v'.id "vault"
  have hmembers : (addMember cfg db userId vaultId email roleStr env nmid).1.members
      = db.members ++ [⟨nmid, vaultId, tu.id, role, env⟩] := by
    rw [hAdd]
    exact log_members cfg _ userId "VAULT_MEMBER_ADDED" v'.id "vault"
  have hfv2 : findVault (addMember cfg db userId vaultId email roleStr env nmid).1
      vaultId = some v' := by
    unfold findVault
    rw [hvaults]
    exact hv'
  have hvm : vaultMembersOf (addMember cfg db userId vaultId email roleStr env nmid).1
      v'.id = vaultMembersOf db v'.id ++ [⟨nmid, vaultId, tu.id, role, env⟩] := by
    unfold vaultMembersOf
    rw [hmembers, List.filter_append]
    simp [hid]
  have hbo : (v'.ownerId == tu.id) = false := by
    simp only [beq_eq_false_iff_ne, ne_eq]
    exact fun hEq => hno' hEq.symm
  constructor
  · have hacc : hasAccess (addMember cfg db userId vaultId email roleStr env nmid).1
        v' tu.id = true := by
      unfold hasAccess
      rw [hvm, List.any_append]
      simp
    have hfind : (vaultMembersOf
          (addMember cfg db userId vaultId email roleStr env nmid).1 v'.id).find?
        (fun x => x.userId == tu.id) = some ⟨nmid, vaultId, tu.id, role, env⟩ := by
      rw [hvm, find?_append_of_none hnone]
      simp
    rw [hid] at hfind
    unfold getVault
    rw [hfv2]
    simp [hacc, hbo, hfind, hid]
  · have hacc : hasAccess (addMember cfg db userId vaultId email roleStr env nmid).1
        v' v'.ownerId = true := by
      unfold hasAccess
      simp
    unfold getVault
    rw [hfv2]
    simp [hacc, hid]

/-- C8 witness: adding `C` to `v1` with envelope `envX` and reading the
vault back as `C` returns `envX`. -/
theorem C8_witness :
    (getVault cfgOn
        (addMember cfgOn baseDB "A" "v1" "c@x.com" "READ_ONLY" envX "m9").1
        "C" "v1").2 = .ok ⟨"v1", "Vault One", envX, false⟩ :=
  (C8_envelope_round_trip cfgOn cfgOn baseDB "A" "v1" "c@x.com" "READ_ONLY"
    envX "m9" ⟨"m9", "v1", "C", .READ_ONLY, envX⟩ vault1 rfl rfl (by decide)).1

/-- C9: a second `deleteVault` on a vault that was just successfully
deleted returns the normal `NotFound` error, not any other error kind. -/
theorem C9_deleteVault_retry_notfound
    (cfg cfg2 : Config) (db : DB) (userId vaultId : String)
    (h : (deleteVault cfg db userId vaultId).2 = .ok ()) :
    (deleteVault cfg2 (deleteVault cfg db userId vaultId).1 userId vaultId).2
      = .error (.notFound "Vault") := by
  obtain ⟨v, hv, ho, heq⟩ := deleteVault_ok_eq h
  have hvaults : (deleteVault cfg db userId vaultId).1.vaults
      = db.vaults.filter (fun x => x.id != vaultId) := by
    rw [heq]
    exact log_vaults cfg _ userId "VAULT_DELETED" v.id "vault"
  have hfv : findVault (deleteVault cfg db userId vaultId).1 vaultId = none := by
    unfold findVault
    rw [hvaults]
    exact find?_filter_id_ne
  exact deleteVault_notFound hfv

/-- C9 witness: deleting vault `v1` twice; the retry reports `NotFound`. -/
theorem C9_witness :
    (deleteVault cfgOn (deleteVault cfgOn baseDB "A" "v1").1 "A" "v1").2
      = .error (.notFound "Vault") :=
  C9_deleteVault_retry_notfound cfgOn cfgOn baseDB "A" "v1" rfl

end ByteRyte
